import Mathlib

/-!
Shallow embedding of the agentic RAG workflow of
`src/prod_assistant/workflow/agentic_rag_workflow_archive.py`.

Message contents are modelled as lists of characters. The language-model
and retrieval collaborators are modelled as oracle functions gathered in a
`Collaborators` structure; the LangGraph state machine built by
`_build_workflow` is modelled as a step function on an `AgentState`
carrying the message list (the `messages` key with `add_messages`
semantics, which appends), the current graph node, and instrumentation
counters recording how often the retrieval collaborator and the
product-assistant generator node were invoked.
-/

namespace ProdAssistant

/-- Message content: Python strings are modelled as lists of characters. -/
abbrev Str := List Char

/-- Model of Python `s.lower()` on ASCII content: lowercase every character. -/
def lowerStr (s : Str) : Str := s.map Char.toLower

/-- The fixed routing keyword list of `_ai_assistant`:
`["price", "review", "product"]`. -/
def routingKeywords : List Str := ["price".toList, "review".toList, "product".toList]

/-- Model of `any(word in last_message.lower() for word in [...])` in
`_ai_assistant`: some routing keyword occurs as a substring of the
lowercased message. -/
def hasRoutingKeyword (m : Str) : Bool :=
  routingKeywords.any (fun w => decide (w <:+: lowerStr m))

/-- The sentinel message `"TOOL: retriever"` appended by `_ai_assistant`
when a routing keyword is present. -/
def toolMarker : Str := "TOOL: retriever".toList

/-- The substring `"TOOL"` tested by the conditional edge after the
Assistant node in `_build_workflow`. -/
def toolSentinel : Str := "TOOL".toList

/-- Model of the classification at the end of `_grade_documents`:
`"generator" if "yes" in score.lower() else "rewriter"`. -/
def gradeVerdict (score : Str) : Str :=
  if "yes".toList <:+: lowerStr score then "generator".toList else "rewriter".toList

/-- A retrieved document: `metadata` entries `product_title`, `price`,
`rating` (each possibly absent, as `meta.get` with default) and the
`page_content` body. A document whose Python `metadata` is `None` is
modelled by all three metadata fields being `none`. -/
structure Doc where
  product_title : Option Str
  price : Option Str
  rating : Option Str
  page_content : Str
deriving DecidableEq

/-- Characters stripped by Python `str.strip()` (ASCII whitespace). -/
def isPyWhitespace (c : Char) : Bool :=
  c == ' ' || c == '\t' || c == '\n' || c == '\x0d' || c == '\x0b' || c == '\x0c'

/-- Model of Python `s.strip()`: drop leading and trailing whitespace. -/
def stripStr (s : Str) : Str :=
  ((s.dropWhile isPyWhitespace).reverse.dropWhile isPyWhitespace).reverse

/-- The default string `"N/A"` used by `meta.get(..., "N/A")`. -/
def naDefault : Str := "N/A".toList

/-- The four-field block built for one document inside the loop of
`_format_docs`: title, price, rating, then the stripped review text. -/
def formatDoc (d : Doc) : Str :=
  "Title: ".toList ++ d.product_title.getD naDefault
    ++ "\nPrice: ".toList ++ d.price.getD naDefault
    ++ "\nRating: ".toList ++ d.rating.getD naDefault
    ++ "\nReviews:\n".toList ++ stripStr d.page_content

/-- Model of Python `sep.join(chunks)`. -/
def joinSep (sep : Str) : List Str → Str
  | [] => []
  | [x] => x
  | x :: y :: xs => x ++ sep ++ joinSep sep (y :: xs)

/-- The fixed separator `"\n\n---\n\n"` used by `_format_docs`. -/
def docSeparator : Str := "\n\n---\n\n".toList

/-- The fixed sentinel returned by `_format_docs` for falsy input. -/
def noDocsSentinel : Str := "No relevant documents found.".toList

/-- The accumulation loop of `_format_docs`: `formatted_chunks = []` then
`formatted_chunks.append(formatted)` for each document in order. -/
def formatChunksLoop : List Doc → List Str → List Str
  | [], acc => acc
  | d :: ds, acc => formatChunksLoop ds (acc ++ [formatDoc d])

/-- Model of `_format_docs(docs)`. The argument is an `Option` so that an
absent (`None`) document list is representable: Python tests `if not docs`,
which is true both for `None` and for the empty list. -/
def _format_docs (docs : Option (List Doc)) : Str :=
  match docs with
  | none => noDocsSentinel
  | some ds =>
    if ds.isEmpty then noDocsSentinel
    else joinSep docSeparator (formatChunksLoop ds [])

/-- The nodes of the compiled LangGraph workflow, plus the END state. -/
inductive Node
  | assistant
  | retriever
  | generator
  | rewriter
  | done
deriving DecidableEq

/-- The workflow state: the `messages` list of the `AgentState` TypedDict,
the node about to execute, and instrumentation counters for collaborator
invocations (how often the Retriever node ran its retrieval call and how
often the Generator node ran the product-assistant template call). -/
structure AgentState where
  messages : List Str
  node : Node
  retrievalCalls : Nat
  generatorCalls : Nat
deriving DecidableEq

/-- The external collaborators, as oracles: the direct-answer LLM chain of
`_ai_assistant` (applied to the question only), the retriever, the grader
LLM chain of `_grade_documents` (applied to question and docs), the
product-assistant generation chain of `_generate` (applied to docs and
question), and the rewrite LLM call of `_rewrite` (applied to the
question only). -/
structure Collaborators where
  directAnswer : Str → Str
  retrieve : Str → List Doc
  gradeResponse : Str → Str → Str
  generateResponse : Str → Str → Str
  rewriteResponse : Str → Str

/-- The conditional edge registered after the Assistant node:
`"Retriever" if "TOOL" in state["messages"][-1].content else END`. -/
def routeFromAssistant (last : Str) : Node :=
  if toolSentinel <:+: last then .retriever else .done

/-- One step of the compiled workflow: run the node `s.node` on the state
and follow the out-edge chosen by `_build_workflow`. Reading from an empty
message list (impossible in a real run, which always starts with the
query) is modelled as `none`. The grading conditional edge after the
Retriever node is folded into the retriever step, since it fires on the
updated state. The END state is absorbing. -/
def step (o : Collaborators) (s : AgentState) : Option AgentState :=
  match s.node with
  | .done => some s
  | .assistant =>
    match s.messages.getLast? with
    | none => none
    | some last =>
      let out := if hasRoutingKeyword last then toolMarker else o.directAnswer last
      some { s with messages := s.messages ++ [out], node := routeFromAssistant out }
  | .retriever =>
    match s.messages.getLast?, s.messages.head? with
    | some query, some question =>
      let docs := o.retrieve query
      let context := _format_docs (some docs)
      let score := o.gradeResponse question context
      some { s with
        messages := s.messages ++ [context],
        node := if gradeVerdict score = "generator".toList then .generator else .rewriter,
        retrievalCalls := s.retrievalCalls + 1 }
    | _, _ => none
  | .generator =>
    match s.messages.getLast?, s.messages.head? with
    | some docsText, some question =>
      some { s with
        messages := s.messages ++ [o.generateResponse docsText question],
        node := .done,
        generatorCalls := s.generatorCalls + 1 }
    | _, _ => none
  | .rewriter =>
    match s.messages.head? with
    | none => none
    | some question =>
      some { s with
        messages := s.messages ++ [o.rewriteResponse question],
        node := .assistant }

/-- The state at the beginning of a `run` invocation: `app.invoke` merges
the new query message into the checkpointed message list of the thread via
`add_messages` (an append), and execution starts at the Assistant node. A
fresh thread has `persisted = []`. -/
def initState (persisted : List Str) (q : Str) : AgentState :=
  { messages := persisted ++ [q], node := .assistant,
    retrievalCalls := 0, generatorCalls := 0 }

/-- Iterate the workflow step function `n` times. -/
def iterSteps (o : Collaborators) : Nat → AgentState → Option AgentState
  | 0, s => some s
  | n + 1, s => (step o s).bind (iterSteps o n)

/-- Collaborator choice whose direct-answer chain outputs plain chat text
containing neither a routing keyword nor the sentinel substring. -/
def directOracle : Collaborators :=
  { directAnswer := fun _ => "Hi there!".toList,
    retrieve := fun _ => [],
    gradeResponse := fun _ _ => "yes".toList,
    generateResponse := fun _ _ => "generated".toList,
    rewriteResponse := fun q => q }

/-- Collaborator choice whose direct-answer chain happens to output the
bare string `"TOOL"`. -/
def toolOracle : Collaborators :=
  { directAnswer := fun _ => "TOOL".toList,
    retrieve := fun _ => [],
    gradeResponse := fun _ _ => "no".toList,
    generateResponse := fun _ _ => [],
    rewriteResponse := fun q => q }

/-- Collaborator choice whose direct-answer chain outputs a sentence that
merely mentions the word `"TOOL"`. -/
def sentinelOracle : Collaborators :=
  { directAnswer := fun _ => "Check the TOOL box.".toList,
    retrieve := fun _ => [],
    gradeResponse := fun _ _ => "no".toList,
    generateResponse := fun _ _ => [],
    rewriteResponse := fun q => q }

/-- Collaborator choice driving the workflow into an endless refinement
loop: the grader never answers affirmatively and every rewritten question
contains a routing keyword. -/
def loopOracle : Collaborators :=
  { directAnswer := fun _ => [],
    retrieve := fun _ => [],
    gradeResponse := fun _ _ => "no".toList,
    generateResponse := fun _ _ => [],
    rewriteResponse := fun _ => "price".toList }

/-- The initial state of a fresh run whose question is the keyword
`"price"` itself. -/
def loopInit : AgentState := initState [] "price".toList

/-- Invariant maintained by `loopOracle` runs: the message list is
nonempty, the current node is never the Generator node nor END, and on
entry to the Assistant node the latest message contains a routing
keyword. -/
def LoopInv (s : AgentState) : Prop :=
  s.messages ≠ []
  ∧ (s.node = .assistant ∨ s.node = .retriever ∨ s.node = .rewriter)
  ∧ (s.node = .assistant →
      ∀ l, s.messages.getLast? = some l → hasRoutingKeyword l = true)

/-- A sample document with a title and rating but no price. -/
def docA : Doc :=
  { product_title := some "Acme Phone".toList, price := none,
    rating := some "4.2".toList, page_content := "  great phone  ".toList }

/-- A sample document with a price but missing title and rating. -/
def docB : Doc :=
  { product_title := none, price := some "99".toList,
    rating := none, page_content := "poor battery".toList }

/-- The final state of a fresh one-step `directOracle` run on the
keyword-free question `"hello"`. -/
def helloFinal : AgentState :=
  { messages := ["hello".toList, "Hi there!".toList], node := .done,
    retrievalCalls := 0, generatorCalls := 0 }

/-- A state about to execute the Rewriter node, as reached after an
irrelevant grading verdict. -/
def rewriterState : AgentState :=
  { messages := ["price".toList, toolMarker, noDocsSentinel], node := .rewriter,
    retrievalCalls := 1, generatorCalls := 0 }

/-- The END state is absorbing. -/
theorem step_done_eq (o : Collaborators) (s : AgentState) (hn : s.node = .done) :
    step o s = some s := by
  unfold step; rw [hn]

/-- Equation for one Assistant step when the latest message is known. -/
theorem step_assistant_eq (o : Collaborators) (s : AgentState) (last : Str)
    (hn : s.node = .assistant) (hl : s.messages.getLast? = some last) :
    step o s = some { s with
      messages := s.messages ++
        [if hasRoutingKeyword last then toolMarker else o.directAnswer last],
      node := routeFromAssistant
        (if hasRoutingKeyword last then toolMarker else o.directAnswer last) } := by
  unfold step; rw [hn, hl]

/-- Equation for one Retriever step (with the grading edge folded in) when
the latest and first messages are known. -/
theorem step_retriever_eq (o : Collaborators) (s : AgentState) (query question : Str)
    (hn : s.node = .retriever) (hq : s.messages.getLast? = some query)
    (hh : s.messages.head? = some question) :
    step o s = some { s with
      messages := s.messages ++ [_format_docs (some (o.retrieve query))],
      node := if gradeVerdict
          (o.gradeResponse question (_format_docs (some (o.retrieve query))))
          = "generator".toList then .generator else .rewriter,
      retrievalCalls := s.retrievalCalls + 1 } := by
  unfold step; rw [hn, hq, hh]

/-- Equation for one Generator step when the latest and first messages are
known. -/
theorem step_generator_eq (o : Collaborators) (s : AgentState) (docsText question : Str)
    (hn : s.node = .generator) (hq : s.messages.getLast? = some docsText)
    (hh : s.messages.head? = some question) :
    step o s = some { s with
      messages := s.messages ++ [o.generateResponse docsText question],
      node := .done,
      generatorCalls := s.generatorCalls + 1 } := by
  unfold step; rw [hn, hq, hh]

/-- Equation for one Rewriter step when the first message is known. -/
theorem step_rewriter_eq (o : Collaborators) (s : AgentState) (question : Str)
    (hn : s.node = .rewriter) (hh : s.messages.head? = some question) :
    step o s = some { s with
      messages := s.messages ++ [o.rewriteResponse question],
      node := .assistant } := by
  unfold step; rw [hn, hh]

/-- Appending on the right keeps a known head. -/
theorem head?_append_some {α : Type} {l l₂ : List α} {a : α}
    (h : l.head? = some a) : (l ++ l₂).head? = some a := by
  cases l with
  | nil => simp at h
  | cons x xs => simpa using h

/-- A nonempty list has a last element. -/
theorem exists_getLast?_of_ne_nil {α : Type} {l : List α} (h : l ≠ []) :
    ∃ a, l.getLast? = some a := by
  cases hgl : l.getLast? with
  | none => exact absurd (List.getLast?_eq_none_iff.mp hgl) h
  | some a => exact ⟨a, rfl⟩

/-- A nonempty list has a head. -/
theorem exists_head?_of_ne_nil {α : Type} {l : List α} (h : l ≠ []) :
    ∃ a, l.head? = some a := by
  cases hd : l.head? with
  | none => exact absurd (List.head?_eq_none_iff.mp hd) h
  | some a => exact ⟨a, rfl⟩

/-- A list with a last element is nonempty. -/
theorem ne_nil_of_getLast?_eq_some {α : Type} {l : List α} {a : α}
    (h : l.getLast? = some a) : l ≠ [] := by
  intro he
  subst he
  simp at h

/-- The accumulation loop of `_format_docs` computes the map of the block
renderer over the documents, appended to the accumulator. -/
theorem formatChunksLoop_eq (ds : List Doc) :
    ∀ acc, formatChunksLoop ds acc = acc ++ ds.map formatDoc := by
  induction ds with
  | nil => intro acc; simp [formatChunksLoop]
  | cons d ds ih => intro acc; simp [formatChunksLoop, ih, List.append_assoc]

/-- A list occurs inside a mapped list exactly when it is the image of an
occurring sublist. -/
theorem sub_of_map_decomp {α β : Type} (f : α → β) (l : List β) (s : List α) :
    l <:+: s.map f ↔ ∃ w, w <:+: s ∧ w.map f = l := by
  constructor
  · rintro ⟨a, b, hab⟩
    rw [List.append_assoc] at hab
    obtain ⟨l₁, l₂, hs, hl₁, hl₂⟩ := List.append_eq_map_iff.mp hab
    obtain ⟨w, l₃, hsplit, hw, hl₃⟩ := List.map_eq_append_iff.mp hl₂
    exact ⟨w, ⟨l₁, l₃, by rw [hs, hsplit, List.append_assoc]⟩, hw⟩
  · rintro ⟨w, ⟨a, b, hab⟩, hw⟩
    exact ⟨a.map f, b.map f, by
      rw [← hw, ← List.map_append, ← List.map_append, hab]⟩

/-- Unfolding `iterSteps` from the right. -/
theorem iterSteps_succ_right (o : Collaborators) (n : Nat) (s : AgentState) :
    iterSteps o (n + 1) s = (iterSteps o n s).bind (step o) := by
  induction n generalizing s with
  | zero => simp [iterSteps]
  | succ n ih =>
    cases h : step o s with
    | none => simp [iterSteps, h]
    | some s₁ =>
      have h1 : iterSteps o (n + 1 + 1) s = iterSteps o (n + 1) s₁ := by
        simp [iterSteps, h]
      have h2 : iterSteps o (n + 1) s = iterSteps o n s₁ := by
        simp [iterSteps, h]
      rw [h1, ih s₁, h2]

/-- Every workflow step keeps the first message unchanged. -/
theorem step_preserves_head (o : Collaborators) {s s' : AgentState} {a : Str}
    (hstep : step o s = some s') (ha : s.messages.head? = some a) :
    s'.messages.head? = some a := by
  have hne : s.messages ≠ [] := by
    intro he
    rw [he] at ha
    simp at ha
  cases hn : s.node
  case done =>
    rw [step_done_eq o s hn] at hstep
    cases hstep
    exact ha
  case assistant =>
    obtain ⟨last, hl⟩ := exists_getLast?_of_ne_nil hne
    rw [step_assistant_eq o s last hn hl] at hstep
    cases hstep
    exact head?_append_some ha
  case retriever =>
    obtain ⟨query, hq⟩ := exists_getLast?_of_ne_nil hne
    rw [step_retriever_eq o s query a hn hq ha] at hstep
    cases hstep
    exact head?_append_some ha
  case generator =>
    obtain ⟨docsText, hq⟩ := exists_getLast?_of_ne_nil hne
    rw [step_generator_eq o s docsText a hn hq ha] at hstep
    cases hstep
    exact head?_append_some ha
  case rewriter =>
    rw [step_rewriter_eq o s a hn ha] at hstep
    cases hstep
    exact head?_append_some ha

/-- Iterating the workflow keeps the first message unchanged. -/
theorem iterSteps_preserves_head (o : Collaborators) (n : Nat) :
    ∀ s s' : AgentState, ∀ a : Str, iterSteps o n s = some s' →
      s.messages.head? = some a → s'.messages.head? = some a := by
  induction n with
  | zero =>
    intro s s' a h ha
    cases h
    exact ha
  | succ n ih =>
    intro s s' a h ha
    simp only [iterSteps] at h
    obtain ⟨s₁, h1, h2⟩ := Option.bind_eq_some.mp h
    exact ih s₁ s' a h2 (step_preserves_head o h1 ha)

/-- Claim C1: the grading step of `_grade_documents` yields the relevant
verdict (returns `"generator"`, the transition to the Generator node)
exactly for the raw grader responses that contain the affirmative token
`"yes"` in some letter case, and the irrelevant verdict (returns
`"rewriter"`, the transition to the Rewriter node) for every other
response, including the empty string. -/
theorem grade_documents_affirmative (score : Str) :
    (gradeVerdict score = "generator".toList ↔
      ∃ w, w <:+: score ∧ lowerStr w = "yes".toList)
    ∧ (gradeVerdict score = "rewriter".toList ↔
      ¬ ∃ w, w <:+: score ∧ lowerStr w = "yes".toList) := by
  have key : ("yes".toList <:+: lowerStr score) ↔
      ∃ w, w <:+: score ∧ lowerStr w = "yes".toList :=
    sub_of_map_decomp Char.toLower ("yes".toList) score
  unfold gradeVerdict
  by_cases h : "yes".toList <:+: lowerStr score
  · rw [if_pos h]
    refine ⟨⟨fun _ => key.mp h, fun _ => rfl⟩, ?_, ?_⟩
    · intro habs
      exact absurd habs (by decide)
    · intro hn
      exact absurd (key.mp h) hn
  · rw [if_neg h]
    refine ⟨⟨?_, ?_⟩, fun _ => fun hex => h (key.mpr hex), fun _ => rfl⟩
    · intro habs
      exact absurd habs (by decide)
    · intro hex
      exact absurd (key.mpr hex) h

/-- Claim C7: for an empty document list, and likewise for an absent
(`None`) one, `_format_docs` returns exactly the fixed sentinel string. -/
theorem format_docs_empty_sentinel :
    _format_docs none = noDocsSentinel ∧ _format_docs (some []) = noDocsSentinel :=
  ⟨rfl, rfl⟩

/-- Claim C8: for a non-empty document list, the output of `_format_docs`
is the four-field blocks of the documents, one block per document, in
input order, joined by the fixed separator; the embedding is a pure
function on immutable lists, so the input is not mutated. -/
theorem format_docs_blocks (docs : List Doc) (h : docs ≠ []) :
    _format_docs (some docs) = joinSep docSeparator (docs.map formatDoc)
    ∧ (docs.map formatDoc).length = docs.length
    ∧ ∀ i : Nat, (docs.map formatDoc)[i]? = (docs[i]?).map formatDoc := by
  refine ⟨?_, by simp, fun i => by simp⟩
  show (if docs.isEmpty = true then noDocsSentinel
        else joinSep docSeparator (formatChunksLoop docs [])) =
    joinSep docSeparator (docs.map formatDoc)
  rw [if_neg (by simpa using h), formatChunksLoop_eq docs [], List.nil_append]

/-- Witness for claim C8 on a concrete two-document list. -/
theorem format_docs_blocks_witness :
    [docA, docB] ≠ ([] : List Doc)
    ∧ (_format_docs (some [docA, docB]) = joinSep docSeparator ([docA, docB].map formatDoc)
      ∧ ([docA, docB].map formatDoc).length = [docA, docB].length
      ∧ ∀ i : Nat, ([docA, docB].map formatDoc)[i]? = ([docA, docB][i]?).map formatDoc) :=
  ⟨by decide, format_docs_blocks [docA, docB] (by decide)⟩

/-- Claim C10: the conditional edge after the Assistant node tests for the
substring `"TOOL"` in the latest message, so a directly generated answer
that merely mentions `"TOOL"` sends the engine to the Retriever node (and
the retrieval collaborator is then invoked) even though the question
contained no routing keyword. -/
theorem tool_substring_transition :
    hasRoutingKeyword "hello there".toList = false
    ∧ iterSteps sentinelOracle 1 (initState [] "hello there".toList) =
        some { messages := ["hello there".toList, "Check the TOOL box.".toList],
               node := .retriever, retrievalCalls := 0, generatorCalls := 0 }
    ∧ (iterSteps sentinelOracle 2 (initState [] "hello there".toList)).map
        AgentState.retrievalCalls = some 1 := by decide

/-- Counterexample to claim C2 as stated: the question `"hi"` contains no
routing keyword, yet when the direct-answer chain happens to output
`"TOOL"` the engine moves to the Retriever node and the retrieval
collaborator is invoked once. -/
theorem router_tool_counterexample :
    hasRoutingKeyword "hi".toList = false
    ∧ (iterSteps toolOracle 1 (initState [] "hi".toList)).map AgentState.node =
        some Node.retriever
    ∧ (iterSteps toolOracle 2 (initState [] "hi".toList)).map AgentState.retrievalCalls =
        some 1 := by decide

/-- Claim C2 (amended): when the latest message contains a routing keyword
(case-insensitively), the Assistant step appends the tool marker, moves to
the Retriever node, and the following step invokes the retrieval
collaborator; when it contains none, the Assistant step appends the
generated direct answer, leaves the retrieval counter unchanged, and moves
to the Retriever node exactly when that answer contains the substring
`"TOOL"` (otherwise to END). -/
theorem router_decision (o : Collaborators) (s : AgentState) (last : Str)
    (hn : s.node = .assistant) (hl : s.messages.getLast? = some last) :
    (hasRoutingKeyword last = true →
      step o s = some { s with messages := s.messages ++ [toolMarker], node := .retriever }
      ∧ (iterSteps o 2 s).map AgentState.retrievalCalls = some (s.retrievalCalls + 1))
    ∧ (hasRoutingKeyword last = false →
      step o s = some { s with
          messages := s.messages ++ [o.directAnswer last],
          node := routeFromAssistant (o.directAnswer last) }
      ∧ (routeFromAssistant (o.directAnswer last) = Node.retriever ↔
          toolSentinel <:+: o.directAnswer last)) := by
  have hne : s.messages ≠ [] := ne_nil_of_getLast?_eq_some hl
  constructor
  · intro hk
    have hout : (if hasRoutingKeyword last then toolMarker else o.directAnswer last)
        = toolMarker := if_pos hk
    have hroute : routeFromAssistant toolMarker = Node.retriever := by decide
    have hstep : step o s =
        some { s with messages := s.messages ++ [toolMarker], node := .retriever } := by
      rw [step_assistant_eq o s last hn hl, hout, hroute]
    refine ⟨hstep, ?_⟩
    obtain ⟨q, hq⟩ := exists_head?_of_ne_nil hne
    have hq2 : (s.messages ++ [toolMarker]).head? = some q := head?_append_some hq
    have hl2 : (s.messages ++ [toolMarker]).getLast? = some toolMarker :=
      List.getLast?_concat _
    have hstep2 := step_retriever_eq o
      { s with messages := s.messages ++ [toolMarker], node := .retriever }
      toolMarker q rfl hl2 hq2
    have h2 : iterSteps o 2 s =
        step o { s with messages := s.messages ++ [toolMarker], node := .retriever } := by
      show (step o s).bind (iterSteps o 1) = _
      rw [hstep]
      show (step o _).bind (iterSteps o 0) = _
      cases step o { s with messages := s.messages ++ [toolMarker], node := .retriever } with
      | none => rfl
      | some x => rfl
    rw [h2, hstep2]
    rfl
  · intro hk
    have hout : (if hasRoutingKeyword last then toolMarker else o.directAnswer last)
        = o.directAnswer last := if_neg (by simp [hk])
    refine ⟨?_, ?_⟩
    · rw [step_assistant_eq o s last hn hl, hout]
    · by_cases hc : toolSentinel <:+: o.directAnswer last
      · simp [routeFromAssistant, hc]
      · simp [routeFromAssistant, hc]

/-- Witness for claim C2 at the concrete question `"price"`. -/
theorem router_decision_witness :
    ((initState [] "price".toList).node = Node.assistant
      ∧ (initState [] "price".toList).messages.getLast? = some "price".toList)
    ∧ ((hasRoutingKeyword "price".toList = true →
        step directOracle (initState [] "price".toList) =
          some { initState [] "price".toList with
                 messages := (initState [] "price".toList).messages ++ [toolMarker],
                 node := .retriever }
        ∧ (iterSteps directOracle 2 (initState [] "price".toList)).map
            AgentState.retrievalCalls =
            some ((initState [] "price".toList).retrievalCalls + 1))
      ∧ (hasRoutingKeyword "price".toList = false →
        step directOracle (initState [] "price".toList) =
          some { initState [] "price".toList with
                 messages := (initState [] "price".toList).messages ++
                   [directOracle.directAnswer "price".toList],
                 node := routeFromAssistant (directOracle.directAnswer "price".toList) }
        ∧ (routeFromAssistant (directOracle.directAnswer "price".toList) = Node.retriever ↔
            toolSentinel <:+: directOracle.directAnswer "price".toList))) :=
  ⟨⟨rfl, by decide⟩,
   router_decision directOracle (initState [] "price".toList) "price".toList rfl (by decide)⟩

/-- Counterexample to claim C3 as stated: for the keyword-free question
`"hello"` the run terminates with the answer produced by the generic
direct-answer chain inside the Assistant node; the registered
product-assistant Generator node is never invoked (its counter is 0). -/
theorem direct_answer_counterexample :
    hasRoutingKeyword "hello".toList = false
    ∧ iterSteps directOracle 1 (initState [] "hello".toList) = some helloFinal
    ∧ helloFinal.node = Node.done
    ∧ helloFinal.generatorCalls = 0
    ∧ helloFinal.messages.getLast? = some (directOracle.directAnswer "hello".toList) := by
  decide

/-- Claim C3 (amended): when the latest message contains no routing
keyword, the Assistant node itself produces the direct answer from the
question alone (generic helpful-assistant prompt, no context) and appends
it, and — provided that answer does not contain the substring `"TOOL"` —
the engine moves directly to END without invoking the product-assistant
Generator node or the retriever (both counters unchanged). -/
theorem direct_answer_path (o : Collaborators) (s : AgentState) (last : Str)
    (hn : s.node = .assistant) (hl : s.messages.getLast? = some last)
    (hk : hasRoutingKeyword last = false)
    (ht : ¬ toolSentinel <:+: o.directAnswer last) :
    step o s = some { s with
      messages := s.messages ++ [o.directAnswer last],
      node := .done } := by
  have hout : (if hasRoutingKeyword last then toolMarker else o.directAnswer last)
      = o.directAnswer last := if_neg (by simp [hk])
  have hroute : routeFromAssistant (o.directAnswer last) = Node.done := by
    unfold routeFromAssistant
    rw [if_neg ht]
  rw [step_assistant_eq o s last hn hl, hout, hroute]

/-- Witness for claim C3 at the concrete question `"hey"`. -/
theorem direct_answer_path_witness :
    ((initState [] "hey".toList).node = Node.assistant
      ∧ (initState [] "hey".toList).messages.getLast? = some "hey".toList
      ∧ hasRoutingKeyword "hey".toList = false
      ∧ ¬ toolSentinel <:+: directOracle.directAnswer "hey".toList)
    ∧ step directOracle (initState [] "hey".toList) =
        some { initState [] "hey".toList with
               messages := (initState [] "hey".toList).messages ++
                 [directOracle.directAnswer "hey".toList],
               node := .done } :=
  ⟨⟨rfl, by decide, by decide, by decide⟩,
   direct_answer_path directOracle (initState [] "hey".toList) "hey".toList
     rfl (by decide) (by decide) (by decide)⟩

/-- Claim C4: the Rewriter step always moves back to the Assistant
(routing) node; it appends the rewritten question, so the latest entry of
the resulting state is that rewritten question, and the rewrite is
computed from the first entry of the message list (the original
question), not from the previous latest entry. -/
theorem rewrite_to_routing (o : Collaborators) (s : AgentState) (question : Str)
    (hn : s.node = .rewriter) (hh : s.messages.head? = some question) :
    step o s = some { s with
      messages := s.messages ++ [o.rewriteResponse question],
      node := .assistant }
    ∧ (s.messages ++ [o.rewriteResponse question]).getLast? =
        some (o.rewriteResponse question) :=
  ⟨step_rewriter_eq o s question hn hh, List.getLast?_concat _⟩

/-- Witness for claim C4 at a concrete rewriter-node state. -/
theorem rewrite_to_routing_witness :
    (rewriterState.node = Node.rewriter
      ∧ rewriterState.messages.head? = some "price".toList)
    ∧ (step directOracle rewriterState = some { rewriterState with
          messages := rewriterState.messages ++
            [directOracle.rewriteResponse "price".toList],
          node := .assistant }
      ∧ (rewriterState.messages ++
          [directOracle.rewriteResponse "price".toList]).getLast? =
          some (directOracle.rewriteResponse "price".toList)) :=
  ⟨⟨rfl, rfl⟩, rewrite_to_routing directOracle rewriterState "price".toList rfl rfl⟩

/-- Counterexample to claim C5 as stated: running the thread once on
`"hello"` persists the messages of `helloFinal`; a second `run` on the
same thread with the new question `"goodbye"` starts from the persisted
messages with the new question appended, so the first entry is still
`"hello"` — not the current run's original question. -/
theorem resumed_thread_counterexample :
    iterSteps directOracle 1 (initState [] "hello".toList) = some helloFinal
    ∧ (initState helloFinal.messages "goodbye".toList).messages.head? =
        some "hello".toList
    ∧ "hello".toList ≠ "goodbye".toList := by decide

/-- Claim C5 (amended): on a run that starts with no persisted state (a
fresh session), the first entry of the message list is the current run's
original question at every point of the run, so every node that reads the
question from the first entry reads the current run's question; on a
resumed session the first entry is instead the earliest persisted
entry. -/
theorem fresh_run_first_entry (o : Collaborators) (q : Str) (n : Nat) (s : AgentState)
    (h : iterSteps o n (initState [] q) = some s) :
    s.messages.head? = some q :=
  iterSteps_preserves_head o n (initState [] q) s q h rfl

/-- Witness for claim C5 on a concrete fresh run. -/
theorem fresh_run_first_entry_witness :
    iterSteps directOracle 1 (initState [] "hello now".toList) =
      some { messages := ["hello now".toList, "Hi there!".toList], node := .done,
             retrievalCalls := 0, generatorCalls := 0 }
    ∧ (AgentState.messages
        { messages := ["hello now".toList, "Hi there!".toList], node := .done,
          retrievalCalls := 0, generatorCalls := 0 }).head? =
        some "hello now".toList :=
  ⟨by decide,
   fresh_run_first_entry directOracle ("hello now".toList) 1
     { messages := ["hello now".toList, "Hi there!".toList], node := .done,
       retrievalCalls := 0, generatorCalls := 0 } (by decide)⟩

/-- The invariant holds at the initial state of the loop run. -/
theorem loopInv_init : LoopInv loopInit := by
  refine ⟨by decide, Or.inl rfl, fun _ l hl => ?_⟩
  have h2 : some "price".toList = some l := hl
  injection h2 with h3
  rw [← h3]
  decide

/-- The loop oracle preserves the invariant and never gets stuck. -/
theorem loopInv_step (s : AgentState) (h : LoopInv s) :
    ∃ s', step loopOracle s = some s' ∧ LoopInv s' := by
  obtain ⟨hne, hnodes, hkw⟩ := h
  rcases hnodes with hn | hn | hn
  · obtain ⟨l, hl⟩ := exists_getLast?_of_ne_nil hne
    have hk := hkw hn l hl
    have hout : (if hasRoutingKeyword l then toolMarker
        else loopOracle.directAnswer l) = toolMarker := if_pos hk
    have hroute : routeFromAssistant toolMarker = Node.retriever := by decide
    have hstep := step_assistant_eq loopOracle s l hn hl
    rw [hout, hroute] at hstep
    refine ⟨_, hstep, ?_, Or.inr (Or.inl rfl), ?_⟩
    · simp
    · intro hc
      exact Node.noConfusion hc
  · obtain ⟨q, hq⟩ := exists_getLast?_of_ne_nil hne
    obtain ⟨a, ha⟩ := exists_head?_of_ne_nil hne
    have hstep := step_retriever_eq loopOracle s q a hn hq ha
    have hcond : ¬ (gradeVerdict
        (loopOracle.gradeResponse a (_format_docs (some (loopOracle.retrieve q))))
        = "generator".toList) :=
      (by decide : ¬ (gradeVerdict "no".toList = "generator".toList))
    rw [if_neg hcond] at hstep
    refine ⟨_, hstep, ?_, Or.inr (Or.inr rfl), ?_⟩
    · simp
    · intro hc
      exact Node.noConfusion hc
  · obtain ⟨a, ha⟩ := exists_head?_of_ne_nil hne
    have hstep := step_rewriter_eq loopOracle s a hn ha
    refine ⟨_, hstep, ?_, Or.inl rfl, fun _ l hl => ?_⟩
    · simp
    · rw [List.getLast?_concat] at hl
      injection hl with h2
      rw [← h2]
      exact (by decide : hasRoutingKeyword "price".toList = true)

/-- Under the loop oracle the run never fails and the invariant holds
after any number of steps. -/
theorem iterSteps_loopInv (n : Nat) :
    ∃ s, iterSteps loopOracle n loopInit = some s ∧ LoopInv s := by
  induction n with
  | zero => exact ⟨loopInit, rfl, loopInv_init⟩
  | succ n ih =>
    obtain ⟨s, hs, hinv⟩ := ih
    obtain ⟨s', hstep, hinv'⟩ := loopInv_step s hinv
    refine ⟨s', ?_, hinv'⟩
    rw [iterSteps_succ_right, hs]
    exact hstep

/-- Claim C6: the engine imposes no bound on rewrite-loop iterations —
under the exhibited collaborator outputs (grader responses never
affirmative, every rewritten question containing a routing keyword) the
run cycles through Assistant, Retriever and Rewriter nodes forever and
after any number of steps has not reached the END state. -/
theorem unbounded_rewrite_loop (n : Nat) :
    ∃ s, iterSteps loopOracle n loopInit = some s ∧ s.node ≠ Node.done := by
  obtain ⟨s, hs, hinv⟩ := iterSteps_loopInv n
  refine ⟨s, hs, ?_⟩
  rcases hinv.2.1 with h | h | h <;> rw [h] <;> decide

/-- Claim C9: every node of the workflow (Assistant, Retriever, Generator,
Rewriter) extends the message list by appending exactly one new entry; all
entries present before the step are unchanged at their positions. -/
theorem append_only_messages (o : Collaborators) (s s' : AgentState)
    (hnd : s.node ≠ Node.done) (hstep : step o s = some s') :
    (∃ m, s'.messages = s.messages ++ [m])
    ∧ ∀ i : Nat, i < s.messages.length → s'.messages[i]? = s.messages[i]? := by
  have hmain : ∃ m, s'.messages = s.messages ++ [m] := by
    cases hn : s.node with
    | done => exact absurd hn hnd
    | assistant =>
      cases hl : s.messages.getLast? with
      | none =>
        rw [show step o s = none by unfold step; rw [hn, hl]] at hstep
        cases hstep
      | some last =>
        rw [step_assistant_eq o s last hn hl] at hstep
        cases hstep
        exact ⟨_, rfl⟩
    | retriever =>
      cases hl : s.messages.getLast? with
      | none =>
        rw [show step o s = none by unfold step; rw [hn, hl]] at hstep
        cases hstep
      | some query =>
        cases hh : s.messages.head? with
        | none =>
          rw [show step o s = none by unfold step; rw [hn, hl, hh]] at hstep
          cases hstep
        | some question =>
          rw [step_retriever_eq o s query question hn hl hh] at hstep
          cases hstep
          exact ⟨_, rfl⟩
    | generator =>
      cases hl : s.messages.getLast? with
      | none =>
        rw [show step o s = none by unfold step; rw [hn, hl]] at hstep
        cases hstep
      | some docsText =>
        cases hh : s.messages.head? with
        | none =>
          rw [show step o s = none by unfold step; rw [hn, hl, hh]] at hstep
          cases hstep
        | some question =>
          rw [step_generator_eq o s docsText question hn hl hh] at hstep
          cases hstep
          exact ⟨_, rfl⟩
    | rewriter =>
      cases hh : s.messages.head? with
      | none =>
        rw [show step o s = none by unfold step; rw [hn, hh]] at hstep
        cases hstep
      | some question =>
        rw [step_rewriter_eq o s question hn hh] at hstep
        cases hstep
        exact ⟨_, rfl⟩
  obtain ⟨m, hm⟩ := hmain
  refine ⟨⟨m, hm⟩, fun i hi => ?_⟩
  rw [hm, List.getElem?_append_left hi]

/-- Witness for claim C9 on a concrete Assistant step. -/
theorem append_only_messages_witness :
    ((initState [] "hello".toList).node ≠ Node.done
      ∧ step directOracle (initState [] "hello".toList) = some helloFinal)
    ∧ ((∃ m, helloFinal.messages = (initState [] "hello".toList).messages ++ [m])
      ∧ ∀ i : Nat, i < (initState [] "hello".toList).messages.length →
          helloFinal.messages[i]? = (initState [] "hello".toList).messages[i]?) :=
  ⟨⟨by decide, by decide⟩,
   append_only_messages directOracle (initState [] "hello".toList) helloFinal
     (by decide) (by decide)⟩

end ProdAssistant
